import Mathlib

set_option maxHeartbeats 1000000

namespace GPhotoSync

/-!
Shallow embedding of `src/sync.py` (a Google Photos → local directory sync
tool).  Pure functions of the source are translated directly; the stateful
sync / download pipeline is modelled by explicit state passing.

Modelling conventions, fixed throughout:
* Python strings are `String`; `str.lower` is modelled on its ASCII fragment
  by `Char.toLower` (the program compares file names, which the remote API
  produces as ASCII-safe names; the claims only need that normalization is a
  function applied uniformly).
* The output directory's contents are a `List String` of the relative paths
  (relative to `output_dir`) at which a regular file currently exists;
  `os.path.isfile(os.path.join(output_dir, rel))` is membership of `rel`.
* The Python `json` stdlib codec is modelled at the document level: a file on
  disk is `FileState.absent`, `FileState.invalid raw` (present but not valid
  JSON, `json.loads` raises), or `FileState.valid doc` (present and parsing
  to the document `doc`).  `json.dumps`/`json.loads` are an inverse pair on
  well-formed documents, so saving writes the document and loading a valid
  file returns its document.
* The download worker pool is modelled by its sequential semantics: workers
  drain a closed queue, each task is consumed exactly once, and the
  coordinator thread consumes one completed outcome per loop iteration.  The
  success / partial-file behaviour of a single transfer attempt is an input
  (`TransferResult`), since the network is external.
-/

/-- Model of `normalized_path` (sync.py line 75): `path.lower()`, used to make
relative-path collision avoidance case-insensitive. -/
def normalized_path (p : String) : String :=
  String.mk (p.data.map Char.toLower)

/-- Index of the last occurrence of a character in a list of characters;
models Python `str.rfind` (with `none` for "not found", where Python uses -1). -/
def rfindIdx (c : Char) : List Char → Option Nat
  | [] => none
  | a :: rest =>
    match rfindIdx c rest with
    | some i => some (i + 1)
    | none => if a = c then some 0 else none

/-- Model of `os.path.splitext` (posix flavour, separator `/`, no altsep):
split at the last dot of the final path component, except that leading dots
of the component never start an extension.  This is the exact generic
algorithm of CPython's `posixpath.splitext`. -/
def splitext (p : String) : String × String :=
  let l := p.data
  let sepIndex : Int := match rfindIdx '/' l with | some i => (i : Int) | none => -1
  let dotIndex : Int := match rfindIdx '.' l with | some i => (i : Int) | none => -1
  if sepIndex < dotIndex ∧
      (List.range l.length).any
        (fun i => decide (sepIndex < (i : Int)) && decide ((i : Int) < dotIndex)
          && !(l.getD i '.' == '.')) then
    (String.mk (l.take dotIndex.toNat), String.mk (l.drop dotIndex.toNat))
  else
    (p, "")

/-- Model of `os.path.join(dir, rel)` in the only case the program uses it
(a directory joined with a relative path). -/
def joinPath (dir rel : String) : String := dir ++ "/" ++ rel

/-- The candidate relative path tried in iteration `suffix` of the
`find_unused_file` loop (sync.py lines 314–319): the preferred name itself for
`suffix = 0`, otherwise `'{}-{}{}'.format(base_name, suffix, extension)` with
`base_name, extension = os.path.splitext(preferred_name)`. -/
def candidate (preferred_name : String) (suffix : Nat) : String :=
  if suffix = 0 then preferred_name
  else
    let base_name := (splitext preferred_name).1
    let extension := (splitext preferred_name).2
    base_name ++ "-" ++ Nat.repr suffix ++ extension

/-- A local file location (sync.py dataclass `FileLocation`, lines 50–53):
a relative path (the durable key space) and the derived absolute path. -/
structure FileLocation where
  relative_path : String
  absolute_path : String
deriving DecidableEq, Repr

/-- A remote media item (sync.py dataclass `MediaItem`, lines 55–63). -/
structure MediaItem where
  video : Bool
  media_id : String
  filename : String
  base_url : String
deriving DecidableEq, Repr

/-- `MediaItem.download_url` (sync.py lines 62–63). -/
def MediaItem.download_url (m : MediaItem) : String :=
  m.base_url ++ (if m.video then "=dv" else "=d")

/-- One download task (sync.py dataclass `Download`, lines 78–81). -/
structure Download where
  image : MediaItem
  location : FileLocation
deriving DecidableEq, Repr

/-- One completed outcome (sync.py dataclass `DownloadResult`, lines 83–86). -/
structure DownloadResult where
  download : Download
  success : Bool
deriving DecidableEq, Repr

/-!  Model of the Python `dict` operations used on `image_locations`
(`Dict[str, str]`, insertion-ordered, unique keys).  A dict is an association
list in insertion order; assignment replaces the value in place for a present
key and appends for a fresh key. -/

/-- Python `k in d` for the locations dict. -/
def dictMem (k : String) : List (String × String) → Bool
  | [] => false
  | kv :: rest => kv.1 == k || dictMem k rest

/-- Python `d[k] = v` for the locations dict. -/
def dictSet : List (String × String) → String → String → List (String × String)
  | [], k, v => [(k, v)]
  | kv :: rest, k, v =>
    if kv.1 = k then (k, v) :: rest else kv :: dictSet rest k v

/-- Python `d.get(k)` / `d[k]` for the locations dict. -/
def dictGet (k : String) : List (String × String) → Option String
  | [] => none
  | kv :: rest => if kv.1 = k then some kv.2 else dictGet k rest

/-- Python `d.values()` for the locations dict. -/
def dictValues (d : List (String × String)) : List String :=
  d.map Prod.snd

/-!  JSON documents and the two persisted-state files.  -/

/-- A JSON document, as produced by `json.loads` (numbers restricted to
integers; the locations file never contains numbers). -/
inductive Json where
  | null
  | bool (b : Bool)
  | num (n : Int)
  | str (s : String)
  | arr (elems : List Json)
  | obj (fields : List (String × Json))

/-- Python truthiness of a parsed JSON document (`None`, `False`, `0`, `''`,
`[]`, `{}` are falsy), as tested by `read_json_file(...) or {}`. -/
def Json.truthy : Json → Bool
  | .null => false
  | .bool b => b
  | .num n => !(n == 0)
  | .str s => match s.data with | [] => false | _ :: _ => true
  | .arr l => match l with | [] => false | _ :: _ => true
  | .obj l => match l with | [] => false | _ :: _ => true

/-- The observable state of one file on disk, at the granularity the `json`
stdlib codec exposes: absent, present but not valid JSON (`json.loads`
raises), or present and parsing to a document. -/
inductive FileState where
  | absent
  | invalid (raw : String)
  | valid (doc : Json)

/-- Model of `read_json_file` (sync.py lines 161–165): `None` when the file is
absent, the parsed document when present and valid, and an uncaught
`json.JSONDecodeError` (modelled as `Except.error`) when present but not
valid JSON. -/
def read_json_file : FileState → Except String (Option Json)
  | .absent => .ok none
  | .invalid _ => .error "json decode error"
  | .valid doc => .ok (some doc)

/-- Model of loading the Location Store in `main` (sync.py line 459):
`image_locations = read_json_file(locations_file) or {}`. -/
def load_image_locations (fs : FileState) : Except String Json :=
  match read_json_file fs with
  | .error e => .error e
  | .ok none => .ok (Json.obj [])
  | .ok (some doc) => .ok (if doc.truthy then doc else Json.obj [])

/-- Serialization of the in-memory locations dict as the JSON document written
by `json.dumps(self.image_locations, indent=2)`. -/
def locations_to_json (locs : List (String × String)) : Json :=
  Json.obj (locs.map (fun kv => (kv.1, Json.str kv.2)))

/-- Reading an identity → relative-path mapping back out of a JSON document
(the inverse direction of `locations_to_json`; `none` when the document is
not an object of strings). -/
def json_to_locations : Json → Option (List (String × String))
  | Json.obj fields =>
    fields.foldr
      (fun kv acc =>
        match kv.2, acc with
        | Json.str v, some rest => some ((kv.1, v) :: rest)
        | _, _ => none)
      (some [])
  | _ => none

/-- Spec-side predicate, from the spec's words: the document is "the expected
identity-to-relative-path mapping" (a JSON object whose values are all
strings).  Used only to compare the spec's load contract with the code. -/
def is_expected_mapping (doc : Json) : Bool :=
  (json_to_locations doc).isSome

/-- Model of `ImageSync.write_image_locations` (sync.py lines 305–307): the
locations file is overwritten wholesale with the serialized dict. -/
def write_image_locations (locs : List (String × String)) : FileState :=
  FileState.valid (locations_to_json locs)

/-!  Name resolver. -/

/-- Loop body of `ImageSync.find_unused_file` (sync.py lines 309–324), starting
at loop counter `suffix`, with explicit fuel for the unbounded `while True`
(the source loop has no bound; the spec notes it never terminates when the
candidate space is practically exhausted).  `disk` is the set of relative
paths at which a file exists under `output_dir`;
`normalized_used_locations` is the caller-owned reservation set. -/
def find_unused_file_from (output_dir : String) (disk : List String)
    (normalized_used_locations : List String) (preferred_name : String) :
    Nat → Nat → Option FileLocation
  | 0, _ => none
  | fuel + 1, suffix =>
    let relative := candidate preferred_name suffix
    if relative ∈ disk ∨ normalized_path relative ∈ normalized_used_locations then
      find_unused_file_from output_dir disk normalized_used_locations preferred_name
        fuel (suffix + 1)
    else
      some { relative_path := relative,
             absolute_path := joinPath output_dir relative }

/-- `ImageSync.find_unused_file` (sync.py lines 309–324): the loop started at
`suffix = 0`. -/
def find_unused_file (output_dir : String) (disk : List String)
    (normalized_used_locations : List String) (preferred_name : String)
    (fuel : Nat) : Option FileLocation :=
  find_unused_file_from output_dir disk normalized_used_locations preferred_name fuel 0

/-!  Download worker pool.  A worker (`DownloadThread.run`, sync.py lines
95–119) drains the pending queue; for each task `urlretrieve` either writes
the file and the worker reports success, or raises, in which case the bare
`except:` catches the error, removes the file at the target path if one
exists (the partial output), and reports failure.  Whether the transfer
succeeds, and whether a failing transfer left a partial file behind, are
environment inputs. -/

/-- Outcome of one `urlretrieve` attempt: success, or an exception with or
without a partial output file having been created first. -/
inductive TransferResult where
  | ok
  | fail (partialCreated : Bool)
deriving DecidableEq, Repr

/-- Add a file to the directory contents (set semantics). -/
def addFile (disk : List String) (f : String) : List String :=
  if f ∈ disk then disk else f :: disk

/-- Model of `os.remove` on a relative path. -/
def removeFile (disk : List String) (f : String) : List String :=
  disk.filter (fun g => !(g == f))

/-- One iteration of the worker loop body (sync.py lines 103–116) on one task:
on success the file is written at the task's path and a successful
`DownloadResult` is queued; on an exception the partial output (if any) is
written first, then `if os.path.isfile(...): os.remove(...)` deletes whatever
file is at the path, and a failed `DownloadResult` is queued. -/
def runTask (disk : List String) (d : Download) (t : TransferResult) :
    List String × DownloadResult :=
  match t with
  | .ok =>
    (addFile disk d.location.relative_path, { download := d, success := true })
  | .fail partialCreated =>
    let disk1 := if partialCreated then addFile disk d.location.relative_path else disk
    let disk2 := if d.location.relative_path ∈ disk1
      then removeFile disk1 d.location.relative_path else disk1
    (disk2, { download := d, success := false })

/-- The worker pool draining the closed pending queue (`DownloadThread.run`,
sync.py lines 95–119), in its sequential semantics: every task is consumed
exactly once and produces exactly one queued outcome; a failed task never
stops the drain.  Returns the directory contents after all transfers and the
completed-outcome queue. -/
def worker_run : List String → List (Download × TransferResult) →
    List String × List DownloadResult
  | disk, [] => (disk, [])
  | disk, (d, t) :: rest =>
    let step := runTask disk d t
    let next := worker_run step.1 rest
    (next.1, step.2 :: next.2)

/-!  Coordinator loop of `ImageSync.download` (sync.py lines 348–380). -/

/-- The coordinator-visible state: the in-memory locations dict and the
persisted locations file. -/
structure DlState where
  image_locations : List (String × String)
  file : FileState

/-- Committing one completed outcome into the in-memory Location Store
(sync.py lines 369–370):
`self.image_locations[result.download.image.media_id] =
 result.download.location.relative_path`, performed for every outcome,
success or failure. -/
def commit_outcome (locs : List (String × String)) (r : DownloadResult) :
    List (String × String) :=
  dictSet locs r.download.image.media_id r.download.location.relative_path

/-- The coordinator loop of `ImageSync.download` (sync.py lines 359–380),
driven by the completed-outcome queue.  Arguments: current state, running
`success` flag, ghost staleness counter (number of outcomes committed to
memory since the persisted file last matched the in-memory dict — not program
state, recorded to state claim C6), `pending_download_count`, and the stream
of completed outcomes.  Each iteration commits the outcome, ands the success
flag, and persists the store when `pending_download_count % 20 == 0`; after
the loop the store is persisted once more unconditionally.  Returns the list
of states observable at iteration boundaries (paired with the staleness
counter), the final state, and the batch success flag; `none` models the
coordinator blocking forever on an outcome queue that never fills
(`completed_download_queue.get()` with no remaining producers). -/
def download_loop : DlState → Bool → Nat → Nat → List DownloadResult →
    Option (List (DlState × Nat) × DlState × Bool)
  | st, success, _, 0, _ =>
    let final : DlState :=
      { image_locations := st.image_locations,
        file := write_image_locations st.image_locations }
    some ([(final, 0)], final, success)
  | _, _, _, _ + 1, [] => none
  | st, success, c, p + 1, r :: rest =>
    let locs := commit_outcome st.image_locations r
    let stNext : DlState :=
      if (p + 1) % 20 = 0 then { image_locations := locs, file := write_image_locations locs }
      else { image_locations := locs, file := st.file }
    let cNext := if (p + 1) % 20 = 0 then 0 else c + 1
    match download_loop stNext (success && r.success) cNext p rest with
    | none => none
    | some (states, fin, succ) => some ((stNext, cNext) :: states, fin, succ)

/-!  The `ImageSync` orchestrator state and operations. -/

/-- The state an `ImageSync` run sees: the in-memory locations dict, the
persisted locations file, the output directory contents and its path
(sync.py lines 242–258; the token/credential plumbing is external to every
claim and is omitted). -/
structure SyncState where
  image_locations : List (String × String)
  file : FileState
  disk : List String
  output_dir : String

/-- The pending new items of a sync run (sync.py lines 327–329): the listed
remote items whose identity is not already a key of the Location Store. -/
def pending_images (locs : List (String × String)) (remote : List MediaItem) :
    List MediaItem :=
  remote.filter (fun i => !(dictMem i.media_id locs))

/-- The reservation loop of `ImageSync.sync` (sync.py lines 338–343): for each
pending item in listing order, reserve a location via `find_unused_file` and
immediately add its normalized relative path to the reservation set. -/
def reserveLoop (output_dir : String) (disk : List String) (fuel : Nat) :
    List String → List MediaItem → Option (List Download × List String)
  | used, [] => some ([], used)
  | used, image :: rest =>
    match find_unused_file output_dir disk used image.filename fuel with
    | none => none
    | some location =>
      match reserveLoop output_dir disk fuel
          (normalized_path location.relative_path :: used) rest with
      | none => none
      | some (ds, usedFinal) =>
        some ({ image := image, location := location } :: ds, usedFinal)

/-- Result of one sync run. -/
inductive SyncOutcome where
  | budgetExceeded (st : SyncState)
  | ok (final : SyncState) (success : Bool) (states : List (DlState × Nat))

/-- `self.download(downloads)` composed with the worker pool that fills the
completed queue: the workers drain the task queue (tasks paired with their
transfer results) and the coordinator loop consumes the outcomes. -/
def run_downloads (st : SyncState) (downloads : List Download)
    (transfers : List TransferResult) : Option SyncOutcome :=
  let wr := worker_run st.disk (downloads.zip transfers)
  match download_loop { image_locations := st.image_locations, file := st.file }
      true 0 downloads.length wr.2 with
  | none => none
  | some (states, fin, succ) =>
    some (.ok { image_locations := fin.image_locations, file := fin.file,
                disk := wr.1, output_dir := st.output_dir } succ states)

/-- `ImageSync.sync` (sync.py lines 326–346).  `remote` is the item stream
produced by `list_images` (the external Remote Catalog, with the item cap and
the not-ready-video filter already applied by the collaborator); `transfers`
gives each task's transfer outcome.  The budget check (lines 330–334) raises
before any location is reserved and before any download task is created, so
the state is returned unchanged in that branch. -/
def sync (st : SyncState) (remote : List MediaItem) (max_downloads : Int)
    (fuel : Nat) (transfers : List TransferResult) : Option SyncOutcome :=
  let images_to_download := pending_images st.image_locations remote
  if max_downloads ≠ -1 ∧ max_downloads < (images_to_download.length : Int) then
    some (.budgetExceeded st)
  else
    match reserveLoop st.output_dir st.disk fuel
        ((dictValues st.image_locations).map normalized_path) images_to_download with
    | none => none
    | some (downloads, _) => run_downloads st downloads transfers

/-!  Reconciliation and the confirmation prompt. -/

/-- Model of `confirm` (sync.py lines 178–182) run against a stream of
operator responses.  Note the source applies `.lower()` to the *prompt*
string (`input("{} [Y/N] ".format(question).lower())`), not to the answer, so
the loop accepts exactly the responses `"y"` and `"n"` and re-prompts
(consuming the next response) on anything else.  Returns the accepted
decision and the unconsumed responses; `none` models blocking forever once
the response stream is exhausted. -/
def confirm : List String → Option (Bool × List String)
  | [] => none
  | answer :: rest =>
    if answer = "y" ∨ answer = "n" then some (answer == "y", rest)
    else confirm rest

/-- Python `f.startswith('.')` on a file name. -/
def is_hidden (f : String) : Bool :=
  match f.data with
  | [] => false
  | c :: _ => c == '.'

/-- The file names `os.walk(self.output_dir)` yields for the top directory
(sync.py line 404): files directly in the output directory, no recursion.
`disk` holds relative paths; the top-level ones are those without a
separator. -/
def walkFiles (disk : List String) : List String :=
  disk.filter (fun f => !(f.data.contains '/'))

/-- `non_hidden_files` (sync.py line 405). -/
def non_hidden_files (disk : List String) : List String :=
  (walkFiles disk).filter (fun f => !(is_hidden f))

/-- `files_to_delete` (sync.py lines 407–409): non-hidden files directly in
the output directory whose name is not any value of the Location Store. -/
def files_to_delete (st : SyncState) : List String :=
  (non_hidden_files st.disk).filter
    (fun f => !(dictValues st.image_locations).contains f)

/-- `entries_to_download` (sync.py lines 415–417): Location Store entries
whose relative path is not among the non-hidden top-level file names. -/
def entries_to_download (st : SyncState) : List (String × String) :=
  st.image_locations.filter
    (fun kv => !(non_hidden_files st.disk).contains kv.2)

/-- Spec-side definition, from the spec's words for claim C7:
"`entriesToRedownload` = LocationStore entries whose relative path does not
correspond to an existing on-disk file". -/
def entries_to_redownload_spec (st : SyncState) : List (String × String) :=
  st.image_locations.filter (fun kv => !st.disk.contains kv.2)

/-- `ImageSync.reconcile` (sync.py lines 402–433).  `responses` is the
operator's response stream (shared by both prompts, in order), `resolve` is
the external catalog's batch lookup (`get_media_items`; identities whose
lookup fails are absent), and `transfers` gives the transfer outcome of each
re-download task. -/
def reconcile (st : SyncState) (responses : List String)
    (resolve : String → Option MediaItem) (transfers : List TransferResult) :
    Option (SyncState × Bool) :=
  let ftd := files_to_delete st
  let step1 : Option (List String × List String) :=
    if ftd.isEmpty then some (st.disk, responses)
    else
      match confirm responses with
      | none => none
      | some (b, rest) =>
        some ((if b then st.disk.filter (fun f => !ftd.contains f) else st.disk), rest)
  match step1 with
  | none => none
  | some (disk1, responses1) =>
    let etd := entries_to_download st
    if etd.isEmpty then
      some ({ st with disk := disk1 }, true)
    else
      match confirm responses1 with
      | none => none
      | some (b, _) =>
        if b then
          let resolved := etd.filterMap
            (fun kv => (resolve kv.1).map (fun mi => (mi, kv.2)))
          let downloads := resolved.map
            (fun p => Download.mk p.1
              { relative_path := p.2, absolute_path := joinPath st.output_dir p.2 })
          match run_downloads { st with disk := disk1 } downloads transfers with
          | none => none
          | some (.ok fin succ _) => some (fin, succ)
          | some (.budgetExceeded _) => none
        else
          some ({ st with disk := disk1 }, true)

/-!  Reachable Location Store states.  The locations file is written only by
this program (the spec's single-writer assumption), so an in-memory Location
Store arises either from loading an absent file (the empty mapping; a present
file holds a previously saved mapping, which `load` returns unchanged — see
claim C9), or is a state observed at an iteration boundary — before or after
a save — of a sync run started from a reachable store. -/

/-- The in-memory Location Store mappings reachable by loading the store and
running any sequence of sync operations, including every mapping observable
mid-run at an iteration boundary of the download loop (in particular every
mapping ever saved to the locations file). -/
inductive ReachableLocs : List (String × String) → Prop where
  | init : ReachableLocs []
  | sync_mid (locs : List (String × String)) (file : FileState)
      (disk : List String) (output_dir : String) (remote : List MediaItem)
      (max_downloads : Int) (fuel : Nat) (transfers : List TransferResult)
      (fin : SyncState) (success : Bool) (states : List (DlState × Nat))
      (s : DlState) (c : Nat) :
      ReachableLocs locs →
      sync { image_locations := locs, file := file, disk := disk,
             output_dir := output_dir } remote max_downloads fuel transfers =
        some (.ok fin success states) →
      (s, c) ∈ states →
      ReachableLocs s.image_locations
  | sync_final (locs : List (String × String)) (file : FileState)
      (disk : List String) (output_dir : String) (remote : List MediaItem)
      (max_downloads : Int) (fuel : Nat) (transfers : List TransferResult)
      (fin : SyncState) (success : Bool) (states : List (DlState × Nat)) :
      ReachableLocs locs →
      sync { image_locations := locs, file := file, disk := disk,
             output_dir := output_dir } remote max_downloads fuel transfers =
        some (.ok fin success states) →
      ReachableLocs fin.image_locations

/-!  Concrete data for the claims' worked scenarios. -/

/-- A sample remote image with the given identity and file name. -/
def sample_item (n f : String) : MediaItem :=
  { video := false, media_id := n, filename := f, base_url := "u" }

/-- A sample download task targeting output directory `"o"`. -/
def sample_download (n f : String) : Download :=
  { image := sample_item n f,
    location := { relative_path := f, absolute_path := joinPath "o" f } }

/-- The batch of claim C4: five tasks, of which exactly the third fails (with
a partial file having been written). -/
def c4_tasks : List (Download × TransferResult) :=
  [(sample_download "i1" "f1.jpg", .ok), (sample_download "i2" "f2.jpg", .ok),
   (sample_download "i3" "f3.jpg", .fail true), (sample_download "i4" "f4.jpg", .ok),
   (sample_download "i5" "f5.jpg", .ok)]

/-- The reconciliation scenario of claim C7: directory `{a.jpg, stray.jpg}`,
store `{id1 ↦ a.jpg, id2 ↦ b.jpg}`. -/
def c7_state : SyncState :=
  { image_locations := [("id1", "a.jpg"), ("id2", "b.jpg")], file := FileState.absent,
    disk := ["a.jpg", "stray.jpg"], output_dir := "o" }

/-- The state refuting claim C7's "does not correspond to an existing on-disk
file" reading: the store's single value names a hidden file that exists on
disk. -/
def c7_counter_state : SyncState :=
  { image_locations := [("id1", ".hidden")], file := FileState.absent,
    disk := [".hidden"], output_dir := "o" }

/- ================================================================
   Theorems
   ================================================================ -/

/-- Assigning `d[k] = v` makes `k` map to `v`. -/
lemma dictGet_dictSet_self (d : List (String × String)) (k v : String) :
    dictGet k (dictSet d k v) = some v := by
  induction d with
  | nil => simp [dictSet, dictGet]
  | cons kv rest ih =>
    by_cases h : kv.1 = k
    · simp [dictSet, h, dictGet]
    · simp [dictSet, h, dictGet, ih]

/-- Every normalized value after `d[k] = v` is `normalized_path v` or an old
normalized value. -/
lemma mem_normValues_dictSet (d : List (String × String)) (k v x : String) :
    x ∈ (dictValues (dictSet d k v)).map normalized_path →
      x = normalized_path v ∨ x ∈ (dictValues d).map normalized_path := by
  induction d with
  | nil =>
    intro hx
    simp [dictSet, dictValues] at hx
    exact Or.inl hx
  | cons kv rest ih =>
    intro hx
    by_cases h : kv.1 = k
    · simp [dictSet, h, dictValues] at hx ⊢
      tauto
    · simp [dictSet, h, dictValues] at hx ⊢
      rcases hx with h1 | h2
      · tauto
      · rcases ih (by simpa [dictValues] using h2) with h3 | h4
        · tauto
        · simp [dictValues] at h4
          tauto

/-- Committing a value whose normalized form is fresh preserves
pairwise-distinctness of the normalized values. -/
lemma nodup_normValues_dictSet (d : List (String × String)) (k v : String)
    (hd : ((dictValues d).map normalized_path).Nodup)
    (hv : normalized_path v ∉ (dictValues d).map normalized_path) :
    ((dictValues (dictSet d k v)).map normalized_path).Nodup := by
  induction d with
  | nil => simp [dictSet, dictValues]
  | cons kv rest ih =>
    simp only [dictValues, List.map_cons, List.nodup_cons, List.mem_cons,
      not_or] at hd hv
    by_cases h : kv.1 = k
    · simp only [dictSet, if_pos h, dictValues, List.map_cons, List.nodup_cons]
      refine ⟨fun hmem => hv.2 hmem, hd.2⟩
    · simp only [dictSet, if_neg h, dictValues, List.map_cons, List.nodup_cons]
      refine ⟨fun hmem => ?_, ih hd.2 hv.2⟩
      rcases mem_normValues_dictSet rest k v _ hmem with h1 | h2
      · exact hv.1 h1.symm
      · exact hd.1 h2

/-- A returned location of the name-resolver loop is a candidate whose index
is at least the start index, it is free (no file on disk, normalized form not
reserved), and every earlier candidate from the start index on was used. -/
lemma find_unused_file_from_spec (output_dir : String) (disk used : List String)
    (preferred : String) :
    ∀ fuel start loc,
      find_unused_file_from output_dir disk used preferred fuel start = some loc →
      ∃ n, start ≤ n ∧
        loc.relative_path = candidate preferred n ∧
        loc.absolute_path = joinPath output_dir (candidate preferred n) ∧
        candidate preferred n ∉ disk ∧
        normalized_path (candidate preferred n) ∉ used ∧
        ∀ m, start ≤ m → m < n →
          (candidate preferred m ∈ disk ∨ normalized_path (candidate preferred m) ∈ used) := by
  intro fuel
  induction fuel with
  | zero => intro start loc h; simp [find_unused_file_from] at h
  | succ fuel ih =>
    intro start loc h
    simp only [find_unused_file_from] at h
    split at h
    · rename_i hused
      obtain ⟨n, hn1, hn2, hn3, hn4, hn5, hn6⟩ := ih (start + 1) loc h
      refine ⟨n, by omega, hn2, hn3, hn4, hn5, fun m hm1 hm2 => ?_⟩
      rcases Nat.eq_or_lt_of_le hm1 with heq | hlt
      · subst heq; exact hused
      · exact hn6 m hlt hm2
    · rename_i hfree
      push_neg at hfree
      injection h with h
      subst h
      exact ⟨start, le_refl _, rfl, rfl, hfree.1, hfree.2, fun m hm1 hm2 => by omega⟩

/-- Freshness of a resolved name: not on disk, normalized form not reserved. -/
lemma find_unused_file_fresh (output_dir : String) (disk used : List String)
    (preferred : String) (fuel : Nat) (loc : FileLocation)
    (h : find_unused_file output_dir disk used preferred fuel = some loc) :
    loc.relative_path ∉ disk ∧ normalized_path loc.relative_path ∉ used := by
  obtain ⟨n, _, h2, _, h4, h5, _⟩ :=
    find_unused_file_from_spec output_dir disk used preferred fuel 0 loc h
  rw [h2]
  exact ⟨h4, h5⟩

/-- The relative paths handed out by the reservation loop have pairwise
distinct normalized forms, none of which is in the initial reservation set. -/
lemma reserveLoop_norms (output_dir : String) (disk : List String) (fuel : Nat) :
    ∀ pending used downloads usedFinal,
      reserveLoop output_dir disk fuel used pending = some (downloads, usedFinal) →
      (downloads.map (fun d => normalized_path d.location.relative_path)).Nodup ∧
        ∀ x ∈ downloads.map (fun d => normalized_path d.location.relative_path),
          x ∉ used := by
  intro pending
  induction pending with
  | nil =>
    intro used downloads usedFinal h
    simp only [reserveLoop] at h
    injection h with h
    injection h with h1 h2
    subst h1
    simp
  | cons image rest ih =>
    intro used downloads usedFinal h
    simp only [reserveLoop] at h
    cases hfind : find_unused_file output_dir disk used image.filename fuel with
    | none => rw [hfind] at h; simp at h
    | some location =>
      rw [hfind] at h
      dsimp only at h
      cases hrec : reserveLoop output_dir disk fuel
          (normalized_path location.relative_path :: used) rest with
      | none => rw [hrec] at h; simp at h
      | some pair =>
        rw [hrec] at h
        obtain ⟨ds, usedF⟩ := pair
        simp only at h
        injection h with h
        injection h with h1 h2
        subst h1
        obtain ⟨ihn, ihm⟩ := ih _ _ _ hrec
        have hfresh := find_unused_file_fresh output_dir disk used image.filename
          fuel location hfind
        constructor
        · simp only [List.map_cons, List.nodup_cons]
          refine ⟨fun hmem => ?_, ihn⟩
          exact (ihm _ hmem) (List.mem_cons_self _ _)
        · intro x hx
          simp only [List.map_cons, List.mem_cons] at hx
          rcases hx with h1 | h2
          · subst h1; exact hfresh.2
          · intro hxu
            exact (ihm _ h2) (List.mem_cons_of_mem _ hxu)

/-- The worker pool reports exactly one outcome per task, in queue order, and
an outcome's success flag records whether its transfer succeeded. -/
lemma worker_run_outcomes :
    ∀ tasks disk,
      (worker_run disk tasks).2 =
        tasks.map (fun task =>
          { download := task.1, success := task.2 matches TransferResult.ok
              : DownloadResult }) := by
  intro tasks
  induction tasks with
  | nil => intro disk; simp [worker_run]
  | cons task rest ih =>
    intro disk
    obtain ⟨d, t⟩ := task
    cases t with
    | ok => simp [worker_run, runTask, ih]
    | fail p => simp [worker_run, runTask, ih]

/-- The first components of a zip form a sublist (a prefix) of the first list. -/
lemma map_fst_zip_sublist {α β : Type} :
    ∀ (l1 : List α) (l2 : List β), List.Sublist ((l1.zip l2).map Prod.fst) l1 := by
  intro l1
  induction l1 with
  | nil => intro l2; simp
  | cons a rest ih =>
    intro l2
    cases l2 with
    | nil => simp
    | cons b l2rest =>
      simp only [List.zip_cons_cons, List.map_cons]
      exact List.Sublist.cons₂ a (ih l2rest)

/-- Invariant of the coordinator loop: if the in-memory mapping's normalized
values are pairwise distinct and the incoming outcomes carry reserved paths
with pairwise-distinct normalized forms, none of which normalizes to an
existing value, then every boundary state of the loop (and the final state)
has pairwise-distinct normalized values. -/
lemma download_loop_nodup :
    ∀ (p : Nat) (st : DlState) (success : Bool) (c : Nat)
      (results : List DownloadResult) (states : List (DlState × Nat))
      (fin : DlState) (succ : Bool),
      download_loop st success c p results = some (states, fin, succ) →
      ((dictValues st.image_locations).map normalized_path).Nodup →
      (results.map (fun r => normalized_path r.download.location.relative_path)).Nodup →
      (∀ r ∈ results,
        normalized_path r.download.location.relative_path ∉
          (dictValues st.image_locations).map normalized_path) →
      (∀ sc ∈ states,
        ((dictValues sc.1.image_locations).map normalized_path).Nodup) ∧
        ((dictValues fin.image_locations).map normalized_path).Nodup := by
  intro p
  induction p with
  | zero =>
    intro st success c results states fin succ h hst _ _
    simp only [download_loop, Option.some.injEq, Prod.mk.injEq] at h
    obtain ⟨h1, h2, _⟩ := h
    subst h1
    subst h2
    refine ⟨fun sc hsc => ?_, hst⟩
    simp only [List.mem_singleton] at hsc
    subst hsc
    exact hst
  | succ p ih =>
    intro st success c results states fin succ h hst hres hdisj
    cases results with
    | nil => simp [download_loop] at h
    | cons r rest =>
      simp only [download_loop] at h
      cases hrec : download_loop
          (if (p + 1) % 20 = 0 then
            { image_locations := commit_outcome st.image_locations r,
              file := write_image_locations (commit_outcome st.image_locations r) }
          else { image_locations := commit_outcome st.image_locations r, file := st.file })
          (success && r.success) (if (p + 1) % 20 = 0 then 0 else c + 1) p rest with
      | none => rw [hrec] at h; simp at h
      | some out =>
        rw [hrec] at h
        obtain ⟨states2, fin2, succ2⟩ := out
        simp only [Option.some.injEq, Prod.mk.injEq] at h
        obtain ⟨h1, h2, _⟩ := h
        subst h1
        subst h2
        simp only [List.map_cons, List.nodup_cons] at hres
        have hfresh : normalized_path r.download.location.relative_path ∉
            (dictValues st.image_locations).map normalized_path :=
          hdisj r (List.mem_cons_self _ _)
        have hst2 : ((dictValues (commit_outcome st.image_locations r)).map
            normalized_path).Nodup :=
          nodup_normValues_dictSet st.image_locations _ _ hst hfresh
        have hdisj2 : ∀ rr ∈ rest,
            normalized_path rr.download.location.relative_path ∉
              (dictValues (commit_outcome st.image_locations r)).map normalized_path := by
          intro rr hrr hmem
          rcases mem_normValues_dictSet st.image_locations _ _ _ hmem with h3 | h4
          · exact hres.1 (h3 ▸ List.mem_map_of_mem
              (fun x => normalized_path x.download.location.relative_path) hrr)
          · exact hdisj rr (List.mem_cons_of_mem _ hrr) h4
        have hmain := ih _ (success && r.success) _ rest states2 fin2 succ2 hrec
          (by split <;> exact hst2) hres.2
          (by split <;> exact hdisj2)
        refine ⟨fun sc hsc => ?_, hmain.2⟩
        rcases List.mem_cons.mp hsc with h5 | h6
        · subst h5
          split <;> exact hst2
        · exact hmain.1 sc h6

/-- Staleness invariant of the coordinator loop: the ghost counter (outcomes
committed to memory since the persisted file last matched it) never exceeds
19 at an iteration boundary, a zero counter means the file equals the
serialized in-memory mapping, and the final state is always freshly saved. -/
lemma download_loop_staleness :
    ∀ (p : Nat) (st : DlState) (success : Bool) (c : Nat)
      (results : List DownloadResult) (states : List (DlState × Nat))
      (fin : DlState) (succ : Bool),
      download_loop st success c p results = some (states, fin, succ) →
      c + p % 20 ≤ 19 →
      (∀ sc ∈ states, sc.2 ≤ 19 ∧
        (sc.2 = 0 → sc.1.file = write_image_locations sc.1.image_locations)) ∧
        fin.file = write_image_locations fin.image_locations := by
  intro p
  induction p with
  | zero =>
    intro st success c results states fin succ h _
    simp only [download_loop, Option.some.injEq, Prod.mk.injEq] at h
    obtain ⟨h1, h2, _⟩ := h
    subst h1
    subst h2
    refine ⟨fun sc hsc => ?_, rfl⟩
    simp only [List.mem_singleton] at hsc
    subst hsc
    exact ⟨by omega, fun _ => rfl⟩
  | succ p ih =>
    intro st success c results states fin succ h hc
    cases results with
    | nil => simp [download_loop] at h
    | cons r rest =>
      simp only [download_loop] at h
      by_cases hsave : (p + 1) % 20 = 0
      · simp only [hsave, if_pos rfl, if_true] at h
        cases hrec : download_loop
            { image_locations := commit_outcome st.image_locations r,
              file := write_image_locations (commit_outcome st.image_locations r) }
            (success && r.success) 0 p rest with
        | none => rw [hrec] at h; simp at h
        | some out =>
          rw [hrec] at h
          obtain ⟨states2, fin2, succ2⟩ := out
          simp only [Option.some.injEq, Prod.mk.injEq] at h
          obtain ⟨h1, h2, _⟩ := h
          subst h1
          subst h2
          have hmain := ih _ (success && r.success) 0 rest states2 fin2 succ2 hrec
            (by omega)
          refine ⟨fun sc hsc => ?_, hmain.2⟩
          rcases List.mem_cons.mp hsc with h5 | h6
          · subst h5
            exact ⟨by omega, fun _ => rfl⟩
          · exact hmain.1 sc h6
      · simp only [hsave, if_neg hsave, if_false] at h
        cases hrec : download_loop
            { image_locations := commit_outcome st.image_locations r, file := st.file }
            (success && r.success) (c + 1) p rest with
        | none => rw [hrec] at h; simp at h
        | some out =>
          rw [hrec] at h
          obtain ⟨states2, fin2, succ2⟩ := out
          simp only [Option.some.injEq, Prod.mk.injEq] at h
          obtain ⟨h1, h2, _⟩ := h
          subst h1
          subst h2
          have hmain := ih _ (success && r.success) (c + 1) rest states2 fin2 succ2 hrec
            (by omega)
          refine ⟨fun sc hsc => ?_, hmain.2⟩
          rcases List.mem_cons.mp hsc with h5 | h6
          · subst h5
            exact ⟨by omega, fun habs => by omega⟩
          · exact hmain.1 sc h6

/-- A sync run started from a store whose normalized values are pairwise
distinct keeps them pairwise distinct at every iteration boundary of the
download loop (hence before and after every save) and in its final state. -/
lemma sync_preserves_nodup (st : SyncState) (remote : List MediaItem)
    (max_downloads : Int) (fuel : Nat) (transfers : List TransferResult)
    (fin : SyncState) (success : Bool) (states : List (DlState × Nat))
    (h : sync st remote max_downloads fuel transfers = some (.ok fin success states))
    (hst : ((dictValues st.image_locations).map normalized_path).Nodup) :
    (∀ sc ∈ states,
      ((dictValues sc.1.image_locations).map normalized_path).Nodup) ∧
      ((dictValues fin.image_locations).map normalized_path).Nodup := by
  simp only [sync] at h
  split at h
  · simp at h
  · cases hres : reserveLoop st.output_dir st.disk fuel
        ((dictValues st.image_locations).map normalized_path)
        (pending_images st.image_locations remote) with
    | none => rw [hres] at h; simp at h
    | some pair =>
      rw [hres] at h
      obtain ⟨downloads, usedFinal⟩ := pair
      simp only [run_downloads] at h
      cases hdl : download_loop
          { image_locations := st.image_locations, file := st.file } true 0
          downloads.length (worker_run st.disk (downloads.zip transfers)).2 with
      | none => rw [hdl] at h; simp at h
      | some out =>
        rw [hdl] at h
        obtain ⟨states2, fin2, succ2⟩ := out
        simp only [Option.some.injEq, SyncOutcome.ok.injEq] at h
        obtain ⟨hfin, _, hstates⟩ := h
        obtain ⟨hrn, hrd⟩ := reserveLoop_norms st.output_dir st.disk fuel _ _ _ _ hres
        have htasks : ((worker_run st.disk (downloads.zip transfers)).2.map
              (fun r => normalized_path r.download.location.relative_path)) =
            ((downloads.zip transfers).map Prod.fst).map
              (fun d => normalized_path d.location.relative_path) := by
          rw [worker_run_outcomes]
          simp [List.map_map]
        have hsub : List.Sublist
            (((downloads.zip transfers).map Prod.fst).map
              (fun d => normalized_path d.location.relative_path))
            (downloads.map (fun d => normalized_path d.location.relative_path)) :=
          List.Sublist.map _ (map_fst_zip_sublist downloads transfers)
        have hresn : ((worker_run st.disk (downloads.zip transfers)).2.map
            (fun r => normalized_path r.download.location.relative_path)).Nodup := by
          rw [htasks]
          exact List.Nodup.sublist hsub hrn
        have hresd : ∀ r ∈ (worker_run st.disk (downloads.zip transfers)).2,
            normalized_path r.download.location.relative_path ∉
              (dictValues st.image_locations).map normalized_path := by
          intro r hr hmem
          have hx : normalized_path r.download.location.relative_path ∈
              ((worker_run st.disk (downloads.zip transfers)).2.map
                (fun r => normalized_path r.download.location.relative_path)) :=
            List.mem_map_of_mem _ hr
          rw [htasks] at hx
          exact hrd _ (hsub.subset hx) hmem
        have hmain := download_loop_nodup downloads.length
          { image_locations := st.image_locations, file := st.file } true 0 _
          states2 fin2 succ2 hdl hst hresn hresd
        subst hstates
        refine ⟨hmain.1, ?_⟩
        rw [← hfin]
        exact hmain.2

/-- Claim C1.  For every Location Store state reachable by loading the store
and running any sequence of sync operations — seeding the reservation set
with the normalized persisted relative paths, reserving each new name via the
Name Resolver, and committing each outcome's reserved relative path into the
mapping — the mapping's relative-path values are pairwise distinct, and their
case-insensitive normalized forms are pairwise distinct, at every iteration
boundary (hence before and after every save). -/
theorem reachable_locations_unique (locs : List (String × String))
    (h : ReachableLocs locs) :
    (dictValues locs).Nodup ∧
      ((dictValues locs).map normalized_path).Nodup := by
  have key : ((dictValues locs).map normalized_path).Nodup := by
    induction h with
    | init => simp [dictValues]
    | sync_mid locs file disk output_dir remote md fuel transfers fin success
        states s c _ hsync hmem ih =>
      exact (sync_preserves_nodup _ remote md fuel transfers fin success states
        hsync ih).1 (s, c) hmem
    | sync_final locs file disk output_dir remote md fuel transfers fin success
        states _ hsync ih =>
      exact (sync_preserves_nodup _ remote md fuel transfers fin success states
        hsync ih).2
  exact ⟨key.of_map, key⟩

/-- Witness for claim C1 at a concrete reachable store. -/
theorem reachable_locations_unique_witness :
    ReachableLocs [] ∧
      ((dictValues ([] : List (String × String))).Nodup ∧
        ((dictValues ([] : List (String × String))).map normalized_path).Nodup) :=
  ⟨ReachableLocs.init, reachable_locations_unique [] ReachableLocs.init⟩

/-- Claim C2.  `find_unused_file` returns the first candidate of the sequence
`P, base-1.ext, base-2.ext, …` (numeric suffix inserted before the last
extension per `splitext`, or at the end if none — that is exactly
`candidate P n`) that is neither an existing file on disk nor, case-
insensitively, in the reservation set; hence the result is not reserved and
does not collide with disk.  Determinism given the same disk state and
reservation set is inherent: the resolver is a pure function of them.  In
particular `"photo.jpg"` requested twice in one batch (the caller adding the
first result's normalized form to the set in between) yields `"photo.jpg"`
then `"photo-1.jpg"`. -/
theorem find_unused_file_correct :
    (∀ (output_dir : String) (disk used : List String) (preferred : String)
      (fuel : Nat) (loc : FileLocation),
      find_unused_file output_dir disk used preferred fuel = some loc →
      ∃ n, loc.relative_path = candidate preferred n ∧
        loc.relative_path ∉ disk ∧
        normalized_path loc.relative_path ∉ used ∧
        ∀ m, m < n →
          candidate preferred m ∈ disk ∨
            normalized_path (candidate preferred m) ∈ used) ∧
    (find_unused_file "o" [] [] "photo.jpg" 2).map FileLocation.relative_path =
      some "photo.jpg" ∧
    (find_unused_file "o" [] [normalized_path "photo.jpg"] "photo.jpg" 2).map
        FileLocation.relative_path = some "photo-1.jpg" := by
  refine ⟨?_, by decide, by decide⟩
  intro output_dir disk used preferred fuel loc h
  obtain ⟨n, _, h2, _, h4, h5, h6⟩ :=
    find_unused_file_from_spec output_dir disk used preferred fuel 0 loc h
  exact ⟨n, h2, h2 ▸ h4, h2 ▸ h5, fun m hm => h6 m (Nat.zero_le m) hm⟩

/-- Witness for claim C2: the resolver applied where `photo.jpg` exists on
disk, forcing the first numbered candidate. -/
theorem find_unused_file_correct_witness :
    find_unused_file "o" ["photo.jpg"] [] "photo.jpg" 3 =
        some { relative_path := "photo-1.jpg", absolute_path := "o/photo-1.jpg" } ∧
      ∃ n, ("photo-1.jpg" : String) = candidate "photo.jpg" n ∧
        ("photo-1.jpg" : String) ∉ (["photo.jpg"] : List String) ∧
        normalized_path "photo-1.jpg" ∉ ([] : List String) ∧
        ∀ m, m < n →
          candidate "photo.jpg" m ∈ (["photo.jpg"] : List String) ∨
            normalized_path (candidate "photo.jpg" m) ∈ ([] : List String) :=
  ⟨by decide,
    find_unused_file_correct.1 "o" ["photo.jpg"] [] "photo.jpg" 3
      { relative_path := "photo-1.jpg", absolute_path := "o/photo-1.jpg" }
      (by decide)⟩

/-- Claim C3.  When `max_downloads` is not `-1` and the pending new items
outnumber it, `sync` raises the budget error (sync.py lines 330–334) before
any location is reserved and before any download task is created or started;
the returned outcome carries the run's state unchanged — in particular the
persisted locations file is exactly the pre-run file, no save having
occurred. -/
theorem sync_budget_exceeded (st : SyncState) (remote : List MediaItem)
    (max_downloads : Int) (fuel : Nat) (transfers : List TransferResult)
    (hne : max_downloads ≠ -1)
    (hgt : max_downloads < ((pending_images st.image_locations remote).length : Int)) :
    sync st remote max_downloads fuel transfers = some (.budgetExceeded st) := by
  simp only [sync]
  rw [if_pos ⟨hne, hgt⟩]

/-- Witness for claim C3: one pending item against a budget of zero. -/
theorem sync_budget_exceeded_witness :
    (0 : Int) ≠ -1 ∧
      (0 : Int) <
        ((pending_images [] [sample_item "i1" "f1.jpg"]).length : Int) ∧
      sync { image_locations := [], file := FileState.absent, disk := [],
             output_dir := "o" } [sample_item "i1" "f1.jpg"] 0 5 [] =
        some (.budgetExceeded { image_locations := [], file := FileState.absent,
                                disk := [], output_dir := "o" }) :=
  ⟨by decide, by decide,
    sync_budget_exceeded
      { image_locations := [], file := FileState.absent, disk := [], output_dir := "o" }
      [sample_item "i1" "f1.jpg"] 0 5 [] (by decide) (by decide)⟩

/-- Claim C4.  Every completed outcome — success or failure — is committed to
the in-memory Location Store, mapping the item's remote identity to its
reserved relative path (first conjunct, the loop's commit step of sync.py
lines 369–370).  In the batch of five tasks where exactly item 3 fails, the
final store holds all five reserved locations, the batch success flag is
false, and no partial file remains at item 3's path (`f3.jpg` is absent from
the resulting directory contents). -/
theorem download_commits_every_outcome :
    (∀ (locs : List (String × String)) (r : DownloadResult),
      dictGet r.download.image.media_id (commit_outcome locs r) =
        some r.download.location.relative_path) ∧
    (worker_run [] c4_tasks).1 = ["f5.jpg", "f4.jpg", "f2.jpg", "f1.jpg"] ∧
    "f3.jpg" ∉ (worker_run [] c4_tasks).1 ∧
    (download_loop { image_locations := [], file := FileState.absent } true 0 5
        (worker_run [] c4_tasks).2).map
      (fun out => (out.2.1.image_locations, out.2.2)) =
      some ([("i1", "f1.jpg"), ("i2", "f2.jpg"), ("i3", "f3.jpg"),
             ("i4", "f4.jpg"), ("i5", "f5.jpg")], false) := by
  refine ⟨?_, by decide, by decide, by decide⟩
  intro locs r
  exact dictGet_dictSet_self locs r.download.image.media_id
    r.download.location.relative_path

/-- Claim C5.  A failing transfer is caught at the task boundary
(`DownloadThread.run`, sync.py lines 103–116): the outcome reported for the
task is a failed `DownloadResult`, and no file remains at the task's path
(the partial output, if one was created, is deleted).  The worker loop is a
total function of the task queue that reports exactly one outcome per task in
order — a failure neither aborts the drain nor triggers a retry, and never
propagates. -/
theorem worker_failure_handling :
    (∀ (disk : List String) (d : Download) (partialCreated : Bool),
      (runTask disk d (.fail partialCreated)).2 =
          { download := d, success := false } ∧
        d.location.relative_path ∉ (runTask disk d (.fail partialCreated)).1) ∧
    (∀ (disk : List String) (tasks : List (Download × TransferResult)),
      (worker_run disk tasks).2 =
        tasks.map (fun task =>
          { download := task.1, success := task.2 matches TransferResult.ok
              : DownloadResult })) := by
  refine ⟨?_, fun disk tasks => worker_run_outcomes tasks disk⟩
  intro disk d partialCreated
  refine ⟨rfl, ?_⟩
  simp only [runTask]
  split <;> split
  all_goals
    first
      | simp [removeFile, List.mem_filter]
      | (rename_i hnot; exact hnot)

/-- Claim C6.  Starting the coordinator loop with a staleness counter of zero,
the counter — the number of outcomes committed to memory since the persisted
file last matched the in-memory mapping — stays at most 19 at every iteration
boundary, a zero counter means the file holds exactly the serialized
in-memory mapping (the store is persisted whenever
`pending_download_count % 20 == 0`, i.e. after every 20 completed outcomes),
and after the batch finishes the store is saved once more unconditionally:
the final state's file is always the serialized final mapping. -/
theorem download_persistence_staleness (st : DlState) (p : Nat)
    (results : List DownloadResult) (states : List (DlState × Nat))
    (fin : DlState) (succ : Bool)
    (h : download_loop st true 0 p results = some (states, fin, succ)) :
    (∀ sc ∈ states, sc.2 ≤ 19 ∧
      (sc.2 = 0 → sc.1.file = write_image_locations sc.1.image_locations)) ∧
      fin.file = write_image_locations fin.image_locations :=
  download_loop_staleness p st true 0 results states fin succ h (by omega)

/-- Witness for claim C6: a one-outcome batch; the final save is
unconditional. -/
theorem download_persistence_staleness_witness :
    download_loop { image_locations := [], file := FileState.absent } true 0 1
        [{ download := sample_download "i1" "f1.jpg", success := true }] =
      some ([({ image_locations := [("i1", "f1.jpg")], file := FileState.absent }, 1),
             ({ image_locations := [("i1", "f1.jpg")],
                file := write_image_locations [("i1", "f1.jpg")] }, 0)],
            { image_locations := [("i1", "f1.jpg")],
              file := write_image_locations [("i1", "f1.jpg")] }, true) ∧
    ({ image_locations := [("i1", "f1.jpg")],
       file := write_image_locations [("i1", "f1.jpg")] } : DlState).file =
      write_image_locations [("i1", "f1.jpg")] :=
  ⟨rfl,
    (download_persistence_staleness
      { image_locations := [], file := FileState.absent } 1
      [{ download := sample_download "i1" "f1.jpg", success := true }]
      [({ image_locations := [("i1", "f1.jpg")], file := FileState.absent }, 1),
       ({ image_locations := [("i1", "f1.jpg")],
          file := write_image_locations [("i1", "f1.jpg")] }, 0)]
      { image_locations := [("i1", "f1.jpg")],
        file := write_image_locations [("i1", "f1.jpg")] } true rfl).2⟩

/-- Claim C7, counterexample.  The claim reads `entriesToRedownload` as "the
entries whose relative path does not correspond to an existing on-disk file";
the code (sync.py lines 415–417) filters against the *non-hidden top-level
file names* instead.  A store entry whose value names a hidden file that
exists on disk separates the two: the code proposes re-downloading `.hidden`
even though the file exists. -/
theorem reconcile_redownload_counterexample :
    entries_to_download c7_counter_state ≠
        entries_to_redownload_spec c7_counter_state ∧
      entries_to_download c7_counter_state = [("id1", ".hidden")] ∧
      ".hidden" ∈ c7_counter_state.disk := by
  refine ⟨?_, by decide, by decide⟩
  decide

/-- Claim C7, amended.  `filesToDelete` is exactly the non-hidden files
directly in the output directory (no recursion) whose name is not any value
of the Location Store; `entriesToRedownload` is exactly the store entries
whose relative path is not among those non-hidden top-level file names (a
hidden or nested on-disk file does not count as present).  On the scenario —
directory `{a.jpg, stray.jpg}`, store `{id1 ↦ a.jpg, id2 ↦ b.jpg}` —
reconcile proposes deleting `stray.jpg` and re-downloading `b.jpg`, and after
both confirmations the directory holds exactly `{b.jpg, a.jpg}` with the
Location Store mapping unchanged and the run successful. -/
theorem reconcile_computation :
    (∀ (st : SyncState) (f : String),
      f ∈ files_to_delete st ↔
        f ∈ non_hidden_files st.disk ∧ f ∉ dictValues st.image_locations) ∧
    (∀ (st : SyncState) (kv : String × String),
      kv ∈ entries_to_download st ↔
        kv ∈ st.image_locations ∧ kv.2 ∉ non_hidden_files st.disk) ∧
    files_to_delete c7_state = ["stray.jpg"] ∧
    entries_to_download c7_state = [("id2", "b.jpg")] ∧
    (reconcile c7_state ["y", "y"]
        (fun id => if id = "id2" then some (sample_item "id2" "b.jpg") else none)
        [.ok]).map (fun p => (p.1.image_locations, p.1.disk, p.2)) =
      some ([("id1", "a.jpg"), ("id2", "b.jpg")], ["b.jpg", "a.jpg"], true) := by
  refine ⟨?_, ?_, by decide, by decide, by decide⟩
  · intro st f
    simp [files_to_delete, List.mem_filter]
  · intro st kv
    simp [entries_to_download, List.mem_filter]

/-- Claim C8, counterexample.  The claim asserts a `CorruptStateError`
whenever the locations file exists but does not parse as the expected
identity → relative-path mapping.  The code (`read_json_file(...) or {}`,
sync.py lines 161–165 and 459) only fails on invalid JSON: a file containing
the valid JSON document `null` is not the expected mapping, yet loading
silently proceeds with the empty mapping. -/
theorem load_nonmapping_counterexample :
    load_image_locations (FileState.valid Json.null) = .ok (Json.obj []) ∧
      is_expected_mapping Json.null = false :=
  ⟨rfl, rfl⟩

/-- Claim C8, amended.  Loading the Location Store returns the empty mapping
when the file is absent, and fails (the uncaught JSON decode error) exactly
when the file exists but is not valid JSON.  A file that parses to a JSON
document is never rejected, even when the document is not the expected
mapping: a falsy document (`null`, `false`, `0`, `""`, `[]`, `{}`) silently
becomes the empty mapping, and any other document is used as-is. -/
theorem load_image_locations_behavior :
    load_image_locations FileState.absent = .ok (Json.obj []) ∧
    (∀ raw, load_image_locations (FileState.invalid raw) =
      .error "json decode error") ∧
    (∀ doc, load_image_locations (FileState.valid doc) =
      .ok (if doc.truthy then doc else Json.obj [])) :=
  ⟨rfl, fun _ => rfl, fun _ => rfl⟩

/-- Claim C9.  Saving a mapping to the locations file and loading it back
yields the identical mapping: the saved document survives the
`read_json_file(...) or {}` load (an empty mapping serializes to `{}`, which
is falsy and replaced by the empty mapping again), and deserializing the
document recovers the mapping exactly. -/
theorem save_load_roundtrip (m : List (String × String))
    (hkeys : (m.map Prod.fst).Nodup) :
    load_image_locations (write_image_locations m) = .ok (locations_to_json m) ∧
      json_to_locations (locations_to_json m) = some m := by
  constructor
  · cases m with
    | nil => rfl
    | cons kv rest => rfl
  · induction m with
    | nil => rfl
    | cons kv rest ih =>
      have ih2 := ih (by
        simp only [List.map_cons, List.nodup_cons] at hkeys
        exact hkeys.2)
      simp only [locations_to_json, json_to_locations, List.map_cons,
        List.foldr_cons] at ih2 ⊢
      rw [ih2]

/-- Witness for claim C9 at a concrete mapping. -/
theorem save_load_roundtrip_witness :
    ((([("a", "b"), ("c", "d")] : List (String × String)).map Prod.fst).Nodup) ∧
      (load_image_locations (write_image_locations [("a", "b"), ("c", "d")]) =
          .ok (locations_to_json [("a", "b"), ("c", "d")]) ∧
        json_to_locations (locations_to_json [("a", "b"), ("c", "d")]) =
          some [("a", "b"), ("c", "d")]) :=
  ⟨by decide, save_load_roundtrip [("a", "b"), ("c", "d")] (by decide)⟩

/-- Claim C10.  `confirm` (sync.py lines 178–182) accepts exactly the
responses `"y"` and `"n"` — the source lowercases the prompt, not the answer,
so `"Y"` and `"N"` (like any other response) cause another prompt — and the
decision is true exactly when the accepted response is `"y"`: the decision
returned is determined by the first response equal to `"y"` or `"n"`. -/
theorem confirm_behavior :
    (∀ responses : List String,
      (confirm responses).map Prod.fst =
        (responses.find? (fun a => a == "y" || a == "n")).map (fun a => a == "y")) ∧
    confirm ["Y", "N", "n"] = some (false, []) ∧
    confirm ["Y", "y"] = some (true, []) := by
  refine ⟨?_, by decide, by decide⟩
  intro responses
  induction responses with
  | nil => rfl
  | cons a rest ih =>
    by_cases h : a = "y" ∨ a = "n"
    · have hb : (a == "y" || a == "n") = true := by
        rcases h with h | h <;> simp [h]
      simp [confirm, h, List.find?, hb]
    · have hb : (a == "y" || a == "n") = false := by
        push_neg at h
        simp [h.1, h.2]
      simp only [List.find?, hb]
      simp only [confirm, if_neg h]
      exact ih

/-- The `splitext` model behaves as CPython's on the representative shapes:
an ordinary extension, a dotfile (no extension), a double extension, and no
dot at all. -/
lemma splitext_examples :
    splitext "photo.jpg" = ("photo", ".jpg") ∧
      splitext ".bashrc" = (".bashrc", "") ∧
      splitext "archive.tar.gz" = ("archive.tar", ".gz") ∧
      splitext "noext" = ("noext", "") := by
  refine ⟨by decide, by decide, by decide, by decide⟩

end GPhotoSync
